import Mathlib

/-!
Verification development for the DICe image container
(`src/core/DICe_Image.h`): the intensity buffer, the finite-difference
gradient engine, the Gaussian smoothing filter, and the two parallel
dispatch strategies (flat and hierarchical).

Scalars (`intensity_t`, `scalar_t`) are modelled as exact rationals; 2D
buffers are row-major lists (row = y, column = x), matching the header's
documented LayoutRight storage, so the dual view access `v.h_view(y,x)`
becomes index `y * width + x`.

The repository ships only the class header: every member function body
(constructors, `compute_gradients`, `gauss_filter`, the Kokkos functors)
is absent. Those definitions are therefore modelled from the spec, as
marked in their doc comments; the accessors whose bodies do appear in the
header (`width`, `height`, `num_pixels`, `offset_x`, `offset_y`,
`operator()`, `grad_x`, `grad_y`, `has_gradients`) are translated
directly from it.
-/

namespace DICe

/-- Error kinds of the spec's error-handling design (§7). -/
inductive Err
  | ConstructionError
  | FormatError
  | ConfigError
  | AccessError
deriving DecidableEq

/-- The `DICe::Image` private state (header lines 239-272): global
offsets, extents, the intensity buffer, the two gradient buffers, the
gradient flag and the Gaussian mask size.  The stencil coefficients
`grad_c1_`/`grad_c2_` are fixed constants (spec §4.2), modelled as the
global definitions `grad_c1`/`grad_c2`; the coefficient table
`gauss_filter_coeffs_` and `gauss_filter_half_mask_` are deterministic
functions of the mask size, modelled as `gauss_coeff` and
`gauss_half_mask`.  Host and device mirrors of a buffer are kept
consistent by the mandatory synchronization (spec §4.4), so one list
stands for both residencies. -/
structure Image where
  offset_x_ : ℕ
  offset_y_ : ℕ
  width_ : ℕ
  height_ : ℕ
  intensities_ : List ℚ
  grad_x_ : List ℚ
  grad_y_ : List ℚ
  has_gradients_ : Bool
  gauss_filter_mask_size_ : ℕ
deriving DecidableEq

/-- Accessor `width()` (header line 146). -/
def Image.width (img : Image) : ℕ := img.width_

/-- Accessor `height()` (header line 151). -/
def Image.height (img : Image) : ℕ := img.height_

/-- Accessor `num_pixels()` = `width_*height_` (header line 156). -/
def Image.num_pixels (img : Image) : ℕ := img.width_ * img.height_

/-- Accessor `offset_x()` (header line 161). -/
def Image.offset_x (img : Image) : ℕ := img.offset_x_

/-- Accessor `offset_y()` (header line 166). -/
def Image.offset_y (img : Image) : ℕ := img.offset_y_

/-- Intensity accessor `operator()(x,y) = intensities_.h_view(y,x)`
(header line 175): indices are switched from coordinates (x,y) to the
row-major (row, column) = (y,x). -/
def Image.intensity (img : Image) (x y : ℕ) : ℚ :=
  img.intensities_.getD (y * img.width_ + x) 0

/-- Gradient accessor `grad_x(x,y) = grad_x_.h_view(y,x)` (header line
189); no validity check of any kind is performed. -/
def Image.grad_x (img : Image) (x y : ℕ) : ℚ :=
  img.grad_x_.getD (y * img.width_ + x) 0

/-- Gradient accessor `grad_y(x,y) = grad_y_.h_view(y,x)` (header line
196). -/
def Image.grad_y (img : Image) (x y : ℕ) : ℚ :=
  img.grad_y_.getD (y * img.width_ + x) 0

/-- Accessor `has_gradients()` (header line 205). -/
def Image.has_gradients (img : Image) : Bool := img.has_gradients_

/-!
Parallel dispatch (spec §4.5).  A kernel is a function from the pixel
index to the value written at that index.  Flat dispatch is one unit of
work per pixel; hierarchical dispatch groups the pixel range into teams
of `team_size` consecutive pixels (the last team possibly partial), each
team computing the same per-pixel formula.
-/

/-- Flat dispatch: the buffer produced by running kernel `f` once per
pixel index in `[0, n)`. -/
def dispatchFlat (f : ℕ → ℚ) (n : ℕ) : List ℚ :=
  (List.range n).map f

/-- Modelled from the spec (§4.5, missing functor bodies): the chunk of
results produced by team `t`, which owns pixel indices
`[t*ts, min ((t+1)*ts) n)`. -/
def teamChunk (f : ℕ → ℚ) (ts n t : ℕ) : List ℚ :=
  (List.range (min ts (n - t * ts))).map (fun l => f (t * ts + l))

/-- Number of teams needed to cover `n` pixels with teams of size `ts`
(ceiling division). -/
def numTeams (n ts : ℕ) : ℕ := (n + ts - 1) / ts

/-- Modelled from the spec (§4.5, missing functor bodies): hierarchical
dispatch concatenates the team chunks in team order. -/
def dispatchHier (f : ℕ → ℚ) (ts n : ℕ) : List ℚ :=
  (List.range (numTeams n ts)).flatMap (fun t => teamChunk f ts n t)

theorem teamChunk_concat (f : ℕ → ℚ) (ts n k : ℕ) :
    (List.range k).flatMap (fun t => teamChunk f ts n t) =
      (List.range (min (k * ts) n)).map f := by
  induction k with
  | zero => simp
  | succ k ih =>
    rw [List.range_succ, List.flatMap_append, ih]
    simp only [List.flatMap_cons, List.flatMap_nil, List.append_nil]
    by_cases h : n ≤ k * ts
    · have h1 : min (k * ts) n = n := Nat.min_eq_right h
      have h2 : min ((k + 1) * ts) n = n := by
        refine Nat.min_eq_right (le_trans h ?_)
        exact Nat.mul_le_mul_right ts (Nat.le_succ k)
      have h3 : n - k * ts = 0 := Nat.sub_eq_zero_of_le h
      simp [teamChunk, h1, h2, h3]
    · push_neg at h
      have h1 : min (k * ts) n = k * ts := Nat.min_eq_left (le_of_lt h)
      have h2 : min ((k + 1) * ts) n = k * ts + min ts (n - k * ts) := by
        have hsm : (k + 1) * ts = k * ts + ts := by ring
        rcases Nat.le_total ((k + 1) * ts) n with hle | hle
        · have hts : ts ≤ n - k * ts := by omega
          rw [Nat.min_eq_left hle, Nat.min_eq_left hts, hsm]
        · have hts : n - k * ts ≤ ts := by omega
          rw [Nat.min_eq_right hle, Nat.min_eq_right hts]
          omega
      rw [h1, h2, List.range_add, List.map_append, List.map_map]
      rfl

theorem numTeams_mul_ge (n ts : ℕ) (hts : 1 ≤ ts) : n ≤ numTeams n ts * ts := by
  unfold numTeams
  rcases Nat.eq_zero_or_pos n with h | h
  · simp [h]
  · rw [Nat.mul_comm]
    have hd := Nat.div_add_mod (n + ts - 1) ts
    have hm := Nat.mod_lt (n + ts - 1) hts
    omega

/-- The hierarchical dispatch produces exactly the flat buffer: the
team decomposition only re-partitions the index range. -/
theorem dispatchHier_eq_flat (f : ℕ → ℚ) (ts n : ℕ) (hts : 1 ≤ ts) :
    dispatchHier f ts n = dispatchFlat f n := by
  unfold dispatchHier dispatchFlat
  rw [teamChunk_concat, Nat.min_eq_right (numTeams_mul_ge n ts hts)]

/-!
Gradient engine (spec §4.2).  The stencil coefficients and the per-pixel
stencils below are modelled from the spec because the bodies of
`compute_gradients` and the gradient functors are not in the repository
sources; the header only declares them (lines 200-202, 217-226) together
with the coefficient members `grad_c1_`/`grad_c2_` (lines 262-265).
-/

/-- Modelled from the spec: `grad_c1_`, the first fixed coefficient of
the 4th-order central-difference formula
f' = (f(x-2) - 8 f(x-1) + 8 f(x+1) - f(x+2)) / 12, computed once, never
re-derived per pixel or per call. -/
def grad_c1 : ℚ := 1 / 12

/-- Modelled from the spec: `grad_c2_`, the second fixed coefficient of
the 4th-order central-difference formula (the weight 8/12 of the nearest
neighbors). -/
def grad_c2 : ℚ := 2 / 3

/-- Modelled from the spec (§4.2, missing gradient functor bodies): the
one-dimensional derivative stencil along a line `f` of extent `n` at
coordinate `t`.  Interior points `2 ≤ t ≤ n-3` use the 4-point
4th-order stencil; the very edge points `t = 0` and `t = n-1` use a
one-sided difference built from the in-bounds points among
`t-1, t, t+1`; the remaining points within 2 pixels of an edge use the
standard 2-point central difference. -/
def gradStencil (f : ℕ → ℚ) (n : ℕ) (t : ℕ) : ℚ :=
  if t = 0 then (if 2 ≤ n then f 1 - f 0 else 0)
  else if t = n - 1 then f t - f (t - 1)
  else if 2 ≤ t ∧ t + 3 ≤ n then
    grad_c1 * (f (t - 2) - f (t + 2)) + grad_c2 * (f (t + 1) - f (t - 1))
  else (f (t + 1) - f (t - 1)) / 2

/-- The x-derivative written at pixel (x,y): the stencil applied along
row y. -/
def Image.grad_x_val (img : Image) (x y : ℕ) : ℚ :=
  gradStencil (fun t => img.intensity t y) img.width_ x

/-- The y-derivative written at pixel (x,y): the stencil applied along
column x. -/
def Image.grad_y_val (img : Image) (x y : ℕ) : ℚ :=
  gradStencil (fun t => img.intensity x t) img.height_ y

/-- Modelled from the spec: `compute_gradients` (header lines 200-202,
body missing).  Fills both gradient buffers over all pixels — pixel
index p maps to coordinates (p % width, p / width) in the row-major
layout — using flat or hierarchical dispatch as selected, then sets
`has_gradients_`.  Reads only the intensity buffer. -/
def Image.compute_gradients (img : Image)
    (use_hierarchical_parallelism : Bool := false)
    (team_size : ℕ := 256) : Image :=
  let fx := fun p => img.grad_x_val (p % img.width_) (p / img.width_)
  let fy := fun p => img.grad_y_val (p % img.width_) (p / img.width_)
  let n := img.width_ * img.height_
  if use_hierarchical_parallelism then
    { img with grad_x_ := dispatchHier fx team_size n,
               grad_y_ := dispatchHier fy team_size n,
               has_gradients_ := true }
  else
    { img with grad_x_ := dispatchFlat fx n,
               grad_y_ := dispatchFlat fy n,
               has_gradients_ := true }

/-!
Gaussian filter engine (spec §4.3).  The header declares the fixed
13×13 coefficient table `gauss_filter_coeffs_` (line 267), the mask
size and half mask (lines 269-271) and `gauss_filter` itself (lines
209-211); the bodies and the table contents are not in the repository
sources and are modelled from the spec.
-/

/-- Modelled from the spec: the separable profile of the precomputed
mask, a binomial approximation of the Gaussian kernel along one axis of
a mask of size `m` (`gauss_filter_coeffs_` row/column factor before
normalization). -/
def gauss_g (m k : ℕ) : ℚ := (Nat.choose (m - 1) k : ℚ)

/-- Modelled from the spec: entry (i,j) of the precomputed normalized
mask table `gauss_filter_coeffs_` for mask size `m` (0 ≤ i,j < m),
normalized so that the full-mask sum is 1. -/
def gauss_coeff (m i j : ℕ) : ℚ :=
  gauss_g m i * gauss_g m j / ((2 ^ (m - 1) : ℚ) * (2 ^ (m - 1) : ℚ))

/-- Modelled from the spec: `gauss_filter_half_mask_` =
`(mask_size - 1) / 2` (spec §3). -/
def gauss_half_mask (m : ℕ) : ℕ := (m - 1) / 2

/-- Whether footprint cell (i,j) of the mask centered at pixel (x,y)
covers an in-bounds pixel: cell (i,j) covers the pixel at
(x - half + i, y - half + j); the test is phrased over ℕ as
`half ≤ x + i ∧ x + i < width + half` (and likewise for y). -/
def Image.gauss_inb (img : Image) (x y i j : ℕ) : Prop :=
  gauss_half_mask img.gauss_filter_mask_size_ ≤ x + i ∧
  x + i < img.width_ + gauss_half_mask img.gauss_filter_mask_size_ ∧
  gauss_half_mask img.gauss_filter_mask_size_ ≤ y + j ∧
  y + j < img.height_ + gauss_half_mask img.gauss_filter_mask_size_

instance (img : Image) (x y i j : ℕ) : Decidable (img.gauss_inb x y i j) :=
  instDecidableAnd

/-- The mask-weighted sum of the in-bounds part of the footprint at
pixel (x,y). -/
def Image.gauss_num (img : Image) (x y : ℕ) : ℚ :=
  ∑ j ∈ Finset.range img.gauss_filter_mask_size_,
    ∑ i ∈ Finset.range img.gauss_filter_mask_size_,
      if img.gauss_inb x y i j then
        gauss_coeff img.gauss_filter_mask_size_ i j *
          img.intensity (x + i - gauss_half_mask img.gauss_filter_mask_size_)
            (y + j - gauss_half_mask img.gauss_filter_mask_size_)
      else 0

/-- The sum of the in-bounds mask weights at pixel (x,y) (equal to 1
when the whole footprint fits). -/
def Image.gauss_den (img : Image) (x y : ℕ) : ℚ :=
  ∑ j ∈ Finset.range img.gauss_filter_mask_size_,
    ∑ i ∈ Finset.range img.gauss_filter_mask_size_,
      if img.gauss_inb x y i j then
        gauss_coeff img.gauss_filter_mask_size_ i j
      else 0

/-- Modelled from the spec (§4.3): the filtered value at pixel (x,y) —
the mask-weighted sum over the in-bounds part of the footprint,
renormalized by the sum of the in-bounds weights so that edge pixels
remain a valid weighted average rather than darkening artificially. -/
def Image.gauss_filtered_at (img : Image) (x y : ℕ) : ℚ :=
  img.gauss_num x y / img.gauss_den x y

/-- Modelled from the spec: `gauss_filter` (header lines 209-211, body
missing).  A mask size that is non-odd or exceeds the fixed 13×13 table
is a ConfigError and no filtering is performed; otherwise the intensity
buffer is overwritten with the filtered field (flat or hierarchical
dispatch) and previously computed gradients are invalidated. -/
def Image.gauss_filter (img : Image)
    (use_hierarchical_parallelism : Bool := false)
    (team_size : ℕ := 256) : Except Err Image :=
  if img.gauss_filter_mask_size_ % 2 = 1 ∧ img.gauss_filter_mask_size_ ≤ 13 then
    let f := fun p => img.gauss_filtered_at (p % img.width_) (p / img.width_)
    let n := img.width_ * img.height_
    if use_hierarchical_parallelism then
      .ok { img with intensities_ := dispatchHier f team_size n,
                     has_gradients_ := false }
    else
      .ok { img with intensities_ := dispatchFlat f n,
                     has_gradients_ := false }
  else .error .ConfigError

/-!
Constructors (spec §4.1, §6).  The header declares four constructors
and the shared `default_constructor_tasks` (lines 75-131); all bodies
are missing from the repository sources and are modelled from the spec.
-/

/-- The recognized image parameters (spec §6): the Gaussian mask size,
default 7. -/
structure Params where
  gauss_mask_size : ℕ := 7

/-- Modelled from the spec: `default_constructor_tasks` (header line
131, body missing).  Validates the configured mask size (odd, at most
the fixed 13×13 table: otherwise ConfigError), stores the extents,
offsets and intensity buffer, leaves the gradient buffers uncomputed
and `has_gradients_` false. -/
def default_constructor_tasks (w h : ℕ) (intens : List ℚ)
    (offx offy : ℕ) (p : Params) : Except Err Image :=
  if p.gauss_mask_size % 2 = 1 ∧ p.gauss_mask_size ≤ 13 then
    .ok { offset_x_ := offx, offset_y_ := offy, width_ := w, height_ := h,
          intensities_ := intens,
          grad_x_ := List.replicate (w * h) 0,
          grad_y_ := List.replicate (w * h) 0,
          has_gradients_ := false,
          gauss_filter_mask_size_ := p.gauss_mask_size }
  else .error .ConfigError

/-- Modelled from the spec: the pre-allocated-array constructor (header
lines 102-105, body missing), with the array already in row-major
layout. -/
def image_from_array (intens : List ℚ) (w h : ℕ)
    (p : Params := {}) : Except Err Image :=
  default_constructor_tasks w h intens 0 0 p

/-- Modelled from the spec: the sub-rectangle constructor (header lines
85-90, body missing).  The decoded parent image is a W×H intensity
field `I`; the requested sub-rectangle must have positive extents and
must not exceed the parent bounds (`offset_x + width ≤ W`,
`offset_y + height ≤ H`), else ConstructionError and no Image is
returned. -/
def image_from_sub_rect (W H : ℕ) (I : ℕ → ℕ → ℚ)
    (offset_x offset_y w h : ℕ) (p : Params := {}) : Except Err Image :=
  if 0 < w ∧ 0 < h ∧ offset_x + w ≤ W ∧ offset_y + h ≤ H then
    default_constructor_tasks w h
      ((List.range (w * h)).map (fun q => I (offset_x + q % w) (offset_y + q / w)))
      offset_x offset_y p
  else .error .ConstructionError

/-!
Helper lemmas: reading a dispatched buffer back through the row-major
accessors recovers the per-pixel kernel value.
-/

theorem dispatchFlat_getD (f : ℕ → ℚ) (n p : ℕ) (hp : p < n) :
    (dispatchFlat f n).getD p 0 = f p := by
  unfold dispatchFlat
  rw [List.getD_eq_getElem?_getD, List.getElem?_map, List.getElem?_range hp]
  rfl

theorem rowMajor_mod (w x y : ℕ) (hx : x < w) : (y * w + x) % w = x := by
  rw [Nat.add_comm, Nat.add_mul_mod_self_right, Nat.mod_eq_of_lt hx]

theorem rowMajor_div (w x y : ℕ) (hx : x < w) : (y * w + x) / w = y := by
  rw [Nat.add_comm, Nat.add_mul_div_right x y (lt_of_le_of_lt (Nat.zero_le x) hx),
    Nat.div_eq_of_lt hx, Nat.zero_add]

theorem rowMajor_lt (w h x y : ℕ) (hx : x < w) (hy : y < h) :
    y * w + x < w * h := by
  calc y * w + x < y * w + w := by omega
  _ = (y + 1) * w := by ring
  _ ≤ h * w := Nat.mul_le_mul_right w hy
  _ = w * h := Nat.mul_comm h w

theorem compute_gradients_grad_x (img : Image) (hier : Bool) (ts : ℕ)
    (hts : 1 ≤ ts) (x y : ℕ) (hx : x < img.width_) (hy : y < img.height_) :
    (img.compute_gradients hier ts).grad_x x y = img.grad_x_val x y := by
  have hw : (img.compute_gradients hier ts).width_ = img.width_ := by
    unfold Image.compute_gradients; cases hier <;> rfl
  have hbuf : (img.compute_gradients hier ts).grad_x_ =
      dispatchFlat (fun p => img.grad_x_val (p % img.width_) (p / img.width_))
        (img.width_ * img.height_) := by
    unfold Image.compute_gradients
    cases hier
    · rfl
    · simp only [if_pos]
      exact dispatchHier_eq_flat _ ts _ hts
  unfold Image.grad_x
  rw [hw, hbuf, dispatchFlat_getD _ _ _ (rowMajor_lt _ _ _ _ hx hy),
    rowMajor_mod _ _ _ hx, rowMajor_div _ _ _ hx]

theorem compute_gradients_grad_y (img : Image) (hier : Bool) (ts : ℕ)
    (hts : 1 ≤ ts) (x y : ℕ) (hx : x < img.width_) (hy : y < img.height_) :
    (img.compute_gradients hier ts).grad_y x y = img.grad_y_val x y := by
  have hw : (img.compute_gradients hier ts).width_ = img.width_ := by
    unfold Image.compute_gradients; cases hier <;> rfl
  have hbuf : (img.compute_gradients hier ts).grad_y_ =
      dispatchFlat (fun p => img.grad_y_val (p % img.width_) (p / img.width_))
        (img.width_ * img.height_) := by
    unfold Image.compute_gradients
    cases hier
    · rfl
    · simp only [if_pos]
      exact dispatchHier_eq_flat _ ts _ hts
  unfold Image.grad_y
  rw [hw, hbuf, dispatchFlat_getD _ _ _ (rowMajor_lt _ _ _ _ hx hy),
    rowMajor_mod _ _ _ hx, rowMajor_div _ _ _ hx]

theorem gauss_filter_intensity (img : Image) (hier : Bool) (ts : ℕ)
    (hts : 1 ≤ ts) (img' : Image)
    (hok : img.gauss_filter hier ts = Except.ok img')
    (x y : ℕ) (hx : x < img.width_) (hy : y < img.height_) :
    img'.intensity x y = img.gauss_filtered_at x y := by
  have hkey : img.gauss_filter hier ts =
      Except.ok { img with
        intensities_ :=
          dispatchFlat (fun p => img.gauss_filtered_at (p % img.width_) (p / img.width_))
            (img.width_ * img.height_),
        has_gradients_ := false } ∨
      img.gauss_filter hier ts = Except.error Err.ConfigError := by
    unfold Image.gauss_filter
    split
    · cases hier
      · left; rfl
      · left
        simp only [if_pos]
        rw [dispatchHier_eq_flat _ ts _ hts]
    · right; rfl
  rcases hkey with hk | hk
  · rw [hok] at hk
    injection hk with hk
    rw [hk]
    show (dispatchFlat (fun p => img.gauss_filtered_at (p % img.width_) (p / img.width_))
        (img.width_ * img.height_)).getD (y * img.width_ + x) 0 =
      img.gauss_filtered_at x y
    rw [dispatchFlat_getD _ _ _ (rowMajor_lt _ _ _ _ hx hy),
      rowMajor_mod _ _ _ hx, rowMajor_div _ _ _ hx]
  · rw [hok] at hk
    exact absurd hk (by simp)

/-!
Stencil case lemmas.
-/

theorem gradStencil_interior (f : ℕ → ℚ) (n t : ℕ) (h1 : 2 ≤ t) (h2 : t + 3 ≤ n) :
    gradStencil f n t =
      grad_c1 * (f (t - 2) - f (t + 2)) + grad_c2 * (f (t + 1) - f (t - 1)) := by
  unfold gradStencil
  rw [if_neg (by omega), if_neg (by omega), if_pos ⟨h1, h2⟩]

theorem gradStencil_left_edge (f : ℕ → ℚ) (n : ℕ) (h : 2 ≤ n) :
    gradStencil f n 0 = f 1 - f 0 := by
  unfold gradStencil
  rw [if_pos rfl, if_pos h]

theorem gradStencil_right_edge (f : ℕ → ℚ) (n : ℕ) (h : 2 ≤ n) :
    gradStencil f n (n - 1) = f (n - 1) - f (n - 2) := by
  unfold gradStencil
  rw [if_neg (by omega), if_pos rfl]
  congr 1

theorem gradStencil_near_edge (f : ℕ → ℚ) (n t : ℕ) (h0 : 1 ≤ t)
    (h1 : t + 1 < n) (h2 : t < 2 ∨ n < t + 3) :
    gradStencil f n t = (f (t + 1) - f (t - 1)) / 2 := by
  unfold gradStencil
  rw [if_neg (by omega), if_neg (by omega), if_neg (by omega)]

/-!
Mask-weight lemmas.
-/

theorem gauss_g_sum (m : ℕ) (hm : 1 ≤ m) :
    ∑ k ∈ Finset.range m, gauss_g m k = (2 : ℚ) ^ (m - 1) := by
  obtain ⟨n, rfl⟩ : ∃ n, m = n + 1 := ⟨m - 1, by omega⟩
  unfold gauss_g
  simp only [Nat.add_sub_cancel]
  norm_cast
  exact Nat.sum_range_choose n

theorem gauss_coeff_nonneg (m i j : ℕ) : 0 ≤ gauss_coeff m i j := by
  unfold gauss_coeff gauss_g
  positivity

theorem gauss_coeff_center_pos (m : ℕ) :
    0 < gauss_coeff m (gauss_half_mask m) (gauss_half_mask m) := by
  unfold gauss_coeff gauss_g gauss_half_mask
  have h : 0 < Nat.choose (m - 1) ((m - 1) / 2) :=
    Nat.choose_pos (Nat.div_le_self _ _)
  have hq : (0 : ℚ) < (Nat.choose (m - 1) ((m - 1) / 2) : ℚ) :=
    Nat.cast_pos.mpr h
  positivity

/-- The full-mask coefficient table sums to exactly 1. -/
theorem gauss_coeff_sum (m : ℕ) (hm : 1 ≤ m) :
    ∑ j ∈ Finset.range m, ∑ i ∈ Finset.range m, gauss_coeff m i j = 1 := by
  have hpow : ((2 : ℚ) ^ (m - 1)) ≠ 0 := by positivity
  unfold gauss_coeff
  have hrow : ∀ j, ∑ i ∈ Finset.range m,
      gauss_g m i * gauss_g m j / ((2 : ℚ) ^ (m - 1) * (2 : ℚ) ^ (m - 1)) =
      (2 : ℚ) ^ (m - 1) * gauss_g m j /
        ((2 : ℚ) ^ (m - 1) * (2 : ℚ) ^ (m - 1)) := by
    intro j
    rw [← Finset.sum_div, ← Finset.sum_mul, gauss_g_sum m hm]
  rw [Finset.sum_congr rfl (fun j _ => hrow j), ← Finset.sum_div, ← Finset.mul_sum,
    gauss_g_sum m hm]
  field_simp

/-- The denominator of the renormalized filter is positive at every
in-bounds pixel: the center weight of the footprint is always in
bounds. -/
theorem gauss_den_pos (img : Image) (x y : ℕ)
    (hm : 1 ≤ img.gauss_filter_mask_size_)
    (hx : x < img.width_) (hy : y < img.height_) :
    0 < img.gauss_den x y := by
  have hhalf : gauss_half_mask img.gauss_filter_mask_size_ <
      img.gauss_filter_mask_size_ := by
    unfold gauss_half_mask
    omega
  have hcinb : img.gauss_inb x y (gauss_half_mask img.gauss_filter_mask_size_)
      (gauss_half_mask img.gauss_filter_mask_size_) := by
    unfold Image.gauss_inb
    omega
  unfold Image.gauss_den
  apply Finset.sum_pos'
  · intro j hj
    apply Finset.sum_nonneg
    intro i hi
    split
    · exact gauss_coeff_nonneg _ i j
    · exact le_refl 0
  · refine ⟨gauss_half_mask img.gauss_filter_mask_size_,
      Finset.mem_range.mpr hhalf, ?_⟩
    apply Finset.sum_pos'
    · intro i hi
      split
      · exact gauss_coeff_nonneg _ i _
      · exact le_refl 0
    · refine ⟨gauss_half_mask img.gauss_filter_mask_size_,
        Finset.mem_range.mpr hhalf, ?_⟩
      rw [if_pos hcinb]
      exact gauss_coeff_center_pos _

/-- On a constant-intensity image the numerator is the constant times
the denominator. -/
theorem gauss_num_const (img : Image) (v : ℚ)
    (hconst : ∀ x, x < img.width_ → ∀ y, y < img.height_ → img.intensity x y = v)
    (x y : ℕ) :
    img.gauss_num x y = v * img.gauss_den x y := by
  unfold Image.gauss_num Image.gauss_den
  rw [Finset.mul_sum]
  refine Finset.sum_congr rfl (fun j hj => ?_)
  rw [Finset.mul_sum]
  refine Finset.sum_congr rfl (fun i hi => ?_)
  by_cases hP : img.gauss_inb x y i j
  · rw [if_pos hP, if_pos hP]
    have hb := hP
    unfold Image.gauss_inb at hb
    have hI : img.intensity (x + i - gauss_half_mask img.gauss_filter_mask_size_)
        (y + j - gauss_half_mask img.gauss_filter_mask_size_) = v := by
      apply hconst
      · omega
      · omega
    rw [hI]
    ring
  · rw [if_neg hP, if_neg hP, mul_zero]

/-- Filtering a constant-intensity image returns the constant at every
pixel, including pixels within half a mask of an edge. -/
theorem gauss_filtered_at_const (img : Image) (v : ℚ)
    (hm : 1 ≤ img.gauss_filter_mask_size_)
    (hconst : ∀ x, x < img.width_ → ∀ y, y < img.height_ → img.intensity x y = v)
    (x y : ℕ) (hx : x < img.width_) (hy : y < img.height_) :
    img.gauss_filtered_at x y = v := by
  unfold Image.gauss_filtered_at
  rw [gauss_num_const img v hconst x y, mul_div_assoc,
    div_self (ne_of_gt (gauss_den_pos img x y hm hx hy)), mul_one]

/-!
Claim theorems.
-/

/-- C1: for every image and every interior pixel (x,y) with
2 ≤ x ≤ width-3 and 2 ≤ y ≤ height-3, after `compute_gradients`
completes (under either dispatch strategy), grad_x(x,y) equals
grad_c1*(I(x-2,y) - I(x+2,y)) + grad_c2*(I(x+1,y) - I(x-1,y)) and
grad_y(x,y) equals the symmetric expression with the roles of x and y
swapped, where I is the intensity buffer at the time of the call and
grad_c1, grad_c2 are fixed coefficients of the 4th-order
central-difference formula, computed once and not varying per pixel or
per call. -/
theorem claim_C1 (img : Image) (hier : Bool) (ts : ℕ) (hts : 1 ≤ ts)
    (x y : ℕ) (hx1 : 2 ≤ x) (hx2 : x + 3 ≤ img.width_)
    (hy1 : 2 ≤ y) (hy2 : y + 3 ≤ img.height_) :
    (img.compute_gradients hier ts).grad_x x y =
      grad_c1 * (img.intensity (x - 2) y - img.intensity (x + 2) y) +
      grad_c2 * (img.intensity (x + 1) y - img.intensity (x - 1) y) ∧
    (img.compute_gradients hier ts).grad_y x y =
      grad_c1 * (img.intensity x (y - 2) - img.intensity x (y + 2)) +
      grad_c2 * (img.intensity x (y + 1) - img.intensity x (y - 1)) := by
  constructor
  · rw [compute_gradients_grad_x img hier ts hts x y (by omega) (by omega)]
    unfold Image.grad_x_val
    exact gradStencil_interior _ _ _ hx1 hx2
  · rw [compute_gradients_grad_y img hier ts hts x y (by omega) (by omega)]
    unfold Image.grad_y_val
    exact gradStencil_interior _ _ _ hy1 hy2

/-- C5: for every pixel within 2 pixels of any edge, `compute_gradients`
falls back from the 4-point stencil to the standard 2-point central
difference in the affected direction, and at the very edge row or
column (x = 0 or x = width-1, and symmetrically y = 0 or y = height-1)
it uses a one-sided difference built only from the in-bounds points
among (x-1,y), (x,y), (x+1,y) (respectively (x,y-1), (x,y), (x,y+1)). -/
theorem claim_C5 (img : Image) (hier : Bool) (ts : ℕ) (hts : 1 ≤ ts) :
    (∀ y, y < img.height_ → 2 ≤ img.width_ →
      (img.compute_gradients hier ts).grad_x 0 y =
        img.intensity 1 y - img.intensity 0 y) ∧
    (∀ y, y < img.height_ → 2 ≤ img.width_ →
      (img.compute_gradients hier ts).grad_x (img.width_ - 1) y =
        img.intensity (img.width_ - 1) y - img.intensity (img.width_ - 2) y) ∧
    (∀ x y, y < img.height_ → 1 ≤ x → x + 1 < img.width_ →
      (x < 2 ∨ img.width_ < x + 3) →
      (img.compute_gradients hier ts).grad_x x y =
        (img.intensity (x + 1) y - img.intensity (x - 1) y) / 2) ∧
    (∀ x, x < img.width_ → 2 ≤ img.height_ →
      (img.compute_gradients hier ts).grad_y x 0 =
        img.intensity x 1 - img.intensity x 0) ∧
    (∀ x, x < img.width_ → 2 ≤ img.height_ →
      (img.compute_gradients hier ts).grad_y x (img.height_ - 1) =
        img.intensity x (img.height_ - 1) - img.intensity x (img.height_ - 2)) ∧
    (∀ x y, x < img.width_ → 1 ≤ y → y + 1 < img.height_ →
      (y < 2 ∨ img.height_ < y + 3) →
      (img.compute_gradients hier ts).grad_y x y =
        (img.intensity x (y + 1) - img.intensity x (y - 1)) / 2) := by
  refine ⟨fun y hy hw => ?_, fun y hy hw => ?_, fun x y hy h1 h2 h3 => ?_,
    fun x hx hh => ?_, fun x hx hh => ?_, fun x y hx h1 h2 h3 => ?_⟩
  · rw [compute_gradients_grad_x img hier ts hts 0 y (by omega) hy]
    unfold Image.grad_x_val
    exact gradStencil_left_edge _ _ hw
  · rw [compute_gradients_grad_x img hier ts hts (img.width_ - 1) y (by omega) hy]
    unfold Image.grad_x_val
    exact gradStencil_right_edge _ _ hw
  · rw [compute_gradients_grad_x img hier ts hts x y (by omega) hy]
    unfold Image.grad_x_val
    exact gradStencil_near_edge _ _ _ h1 h2 h3
  · rw [compute_gradients_grad_y img hier ts hts x 0 hx (by omega)]
    unfold Image.grad_y_val
    exact gradStencil_left_edge _ _ hh
  · rw [compute_gradients_grad_y img hier ts hts x (img.height_ - 1) hx (by omega)]
    unfold Image.grad_y_val
    exact gradStencil_right_edge _ _ hh
  · rw [compute_gradients_grad_y img hier ts hts x y hx (by omega)]
    unfold Image.grad_y_val
    exact gradStencil_near_edge _ _ _ h1 h2 h3

/-- C6: for every image whose intensities form a linear ramp
I(x,y) = a*x + b*y + c, after `compute_gradients` the gradient equals
the constant pair (a, b) at every interior pixel
(2 ≤ x ≤ width-3, 2 ≤ y ≤ height-3); this pins down the stencil
coefficients grad_c1, grad_c2 (e.g. 2*grad_c2 - 4*grad_c1 = 1). -/
theorem claim_C6 (img : Image) (a b c : ℚ) (hier : Bool) (ts : ℕ)
    (hts : 1 ≤ ts)
    (hramp : ∀ x, x < img.width_ → ∀ y, y < img.height_ →
      img.intensity x y = a * x + b * y + c)
    (x y : ℕ) (hx1 : 2 ≤ x) (hx2 : x + 3 ≤ img.width_)
    (hy1 : 2 ≤ y) (hy2 : y + 3 ≤ img.height_) :
    (img.compute_gradients hier ts).grad_x x y = a ∧
    (img.compute_gradients hier ts).grad_y x y = b ∧
    2 * grad_c2 - 4 * grad_c1 = 1 := by
  refine ⟨?_, ?_, by unfold grad_c1 grad_c2; norm_num⟩
  · rw [compute_gradients_grad_x img hier ts hts x y (by omega) (by omega)]
    unfold Image.grad_x_val
    rw [gradStencil_interior _ _ _ hx1 hx2,
      hramp (x - 2) (by omega) y (by omega),
      hramp (x + 2) (by omega) y (by omega),
      hramp (x + 1) (by omega) y (by omega),
      hramp (x - 1) (by omega) y (by omega),
      Nat.cast_sub hx1, Nat.cast_sub (show 1 ≤ x by omega)]
    push_cast
    unfold grad_c1 grad_c2
    ring
  · rw [compute_gradients_grad_y img hier ts hts x y (by omega) (by omega)]
    unfold Image.grad_y_val
    rw [gradStencil_interior _ _ _ hy1 hy2,
      hramp x (by omega) (y - 2) (by omega),
      hramp x (by omega) (y + 2) (by omega),
      hramp x (by omega) (y + 1) (by omega),
      hramp x (by omega) (y - 1) (by omega),
      Nat.cast_sub hy1, Nat.cast_sub (show 1 ≤ y by omega)]
    push_cast
    unfold grad_c1 grad_c2
    ring

/-- C2: for every valid mask size (odd, at most 13), the precomputed
Gaussian mask weights sum to 1 (exactly, in the rational model), and
applying `gauss_filter` to a constant-intensity image of value v yields
v at every pixel, including pixels within half_mask of an edge, because
pixels whose full footprint does not fit use a partial-mask sum
renormalized by the sum of in-bounds weights. -/
theorem claim_C2 (m : ℕ) (hodd : m % 2 = 1) (hle : m ≤ 13) :
    (∑ j ∈ Finset.range m, ∑ i ∈ Finset.range m, gauss_coeff m i j = 1) ∧
    ∀ (img : Image) (v : ℚ) (hier : Bool) (ts : ℕ), 1 ≤ ts →
      img.gauss_filter_mask_size_ = m →
      (∀ x, x < img.width_ → ∀ y, y < img.height_ → img.intensity x y = v) →
      ∀ img', img.gauss_filter hier ts = Except.ok img' →
      ∀ x, x < img.width_ → ∀ y, y < img.height_ → img'.intensity x y = v := by
  constructor
  · exact gauss_coeff_sum m (by omega)
  · intro img v hier ts hts hmask hconst img' hok x hx y hy
    rw [gauss_filter_intensity img hier ts hts img' hok x y hx hy]
    exact gauss_filtered_at_const img v (by omega) hconst x y hx hy

/-- C3: for every input image and for both kernels (`compute_gradients`
and `gauss_filter`), running with use_hierarchical_parallelism=false
and with use_hierarchical_parallelism=true (for any valid team_size)
produce identical results (exactly equal in the rational model, hence
within any tolerance); the hierarchical path never changes the
numerical semantics. -/
theorem claim_C3 (img : Image) (ts : ℕ) (hts : 1 ≤ ts) :
    img.compute_gradients true ts = img.compute_gradients false ts ∧
    img.gauss_filter true ts = img.gauss_filter false ts := by
  constructor
  · simp only [Image.compute_gradients]
    rw [if_pos trivial, if_neg (by simp), dispatchHier_eq_flat _ ts _ hts,
      dispatchHier_eq_flat _ ts _ hts]
  · simp only [Image.gauss_filter]
    by_cases hv : img.gauss_filter_mask_size_ % 2 = 1 ∧
        img.gauss_filter_mask_size_ ≤ 13
    · rw [if_pos hv, if_pos hv, if_pos trivial, if_neg (by simp),
        dispatchHier_eq_flat _ ts _ hts]
    · rw [if_neg hv, if_neg hv]

theorem default_ctor_flag (w h : ℕ) (intens : List ℚ) (offx offy : ℕ)
    (p : Params) (img : Image)
    (hok : default_constructor_tasks w h intens offx offy p = Except.ok img) :
    img.has_gradients_ = false := by
  unfold default_constructor_tasks at hok
  split at hok
  · injection hok with e
    rw [← e]
  · exact absurd hok (by simp)

theorem gauss_filter_flag (img : Image) (hier : Bool) (ts : ℕ) (img' : Image)
    (hok : img.gauss_filter hier ts = Except.ok img') :
    img'.has_gradients_ = false := by
  unfold Image.gauss_filter at hok
  split at hok
  · split at hok <;> · injection hok with e; rw [← e]
  · exact absurd hok (by simp)

/-- C4: `has_gradients()` returns false immediately after any
constructor returns and immediately after every `gauss_filter` call (a
filter pass invalidates previously computed gradients), and it returns
true only after a completed `compute_gradients` call. -/
theorem claim_C4 :
    (∀ (w h : ℕ) (intens : List ℚ) (offx offy : ℕ) (p : Params) (img : Image),
      default_constructor_tasks w h intens offx offy p = Except.ok img →
      img.has_gradients = false) ∧
    (∀ (intens : List ℚ) (w h : ℕ) (p : Params) (img : Image),
      image_from_array intens w h p = Except.ok img →
      img.has_gradients = false) ∧
    (∀ (W H : ℕ) (I : ℕ → ℕ → ℚ) (offx offy w h : ℕ) (p : Params) (img : Image),
      image_from_sub_rect W H I offx offy w h p = Except.ok img →
      img.has_gradients = false) ∧
    (∀ (img : Image) (hier : Bool) (ts : ℕ) (img' : Image),
      img.gauss_filter hier ts = Except.ok img' →
      img'.has_gradients = false) ∧
    (∀ (img : Image) (hier : Bool) (ts : ℕ),
      (img.compute_gradients hier ts).has_gradients = true) := by
  refine ⟨?_, ?_, ?_, ?_, ?_⟩
  · intro w h intens offx offy p img hok
    exact default_ctor_flag w h intens offx offy p img hok
  · intro intens w h p img hok
    exact default_ctor_flag w h intens 0 0 p img hok
  · intro W H I offx offy w h p img hok
    unfold image_from_sub_rect at hok
    split at hok
    · exact default_ctor_flag _ _ _ _ _ _ _ hok
    · exact absurd hok (by simp)
  · intro img hier ts img' hok
    exact gauss_filter_flag img hier ts img' hok
  · intro img hier ts
    show (img.compute_gradients hier ts).has_gradients_ = true
    unfold Image.compute_gradients
    cases hier <;> rfl

/-- C7: constructing a sub-image fails with a ConstructionError exactly
when the requested sub-rectangle exceeds the parent image's declared
bounds (offset_x + width or offset_y + height beyond the parent
extents) or width/height is zero, and no partial Image is returned on
failure (the error constructor carries no Image); concretely,
offset_x=5, offset_y=5, width=20, height=20 from a 50×50 parent
succeeds, while width=50 at that offset fails. -/
theorem claim_C7 (W H : ℕ) (I : ℕ → ℕ → ℚ) (offx offy w h : ℕ) :
    (image_from_sub_rect W H I offx offy w h {} =
        Except.error Err.ConstructionError ↔
      ¬(0 < w ∧ 0 < h ∧ offx + w ≤ W ∧ offy + h ≤ H)) ∧
    (∃ img, image_from_sub_rect 50 50 I 5 5 20 20 {} = Except.ok img) ∧
    image_from_sub_rect 50 50 I 5 5 50 20 {} =
      Except.error Err.ConstructionError := by
  refine ⟨?_, ?_, ?_⟩
  · by_cases hc : 0 < w ∧ 0 < h ∧ offx + w ≤ W ∧ offy + h ≤ H
    · unfold image_from_sub_rect default_constructor_tasks
      rw [if_pos hc, if_pos (by norm_num)]
      simp [hc]
    · unfold image_from_sub_rect
      rw [if_neg hc]
      simp [hc]
  · unfold image_from_sub_rect default_constructor_tasks
    rw [if_pos (by norm_num), if_pos (by norm_num)]
    exact ⟨_, rfl⟩
  · unfold image_from_sub_rect
    rw [if_neg (by omega)]

/-- C8: requesting a Gaussian filter mask size that is non-odd or
exceeds the fixed maximum table size of 13 fails with a ConfigError at
construction/filter time; no filtering is performed with an invalid
mask (the error constructor carries no Image), and every footprint
index the filter sums over — i, j below the mask size — stays inside
the fixed 13×13 coefficient table. -/
theorem claim_C8 :
    (∀ (img : Image) (hier : Bool) (ts : ℕ),
      img.gauss_filter hier ts = Except.error Err.ConfigError ↔
        ¬(img.gauss_filter_mask_size_ % 2 = 1 ∧
          img.gauss_filter_mask_size_ ≤ 13)) ∧
    (∀ (w h : ℕ) (intens : List ℚ) (offx offy : ℕ) (p : Params),
      default_constructor_tasks w h intens offx offy p =
          Except.error Err.ConfigError ↔
        ¬(p.gauss_mask_size % 2 = 1 ∧ p.gauss_mask_size ≤ 13)) ∧
    (∀ (img : Image), img.gauss_filter_mask_size_ % 2 = 1 →
      img.gauss_filter_mask_size_ ≤ 13 →
      ∀ i j, i < img.gauss_filter_mask_size_ →
        j < img.gauss_filter_mask_size_ → i < 13 ∧ j < 13) := by
  refine ⟨?_, ?_, ?_⟩
  · intro img hier ts
    unfold Image.gauss_filter
    by_cases hv : img.gauss_filter_mask_size_ % 2 = 1 ∧
        img.gauss_filter_mask_size_ ≤ 13
    · rw [if_pos hv]
      cases hier <;> simp [hv]
    · rw [if_neg hv]
      simp [hv]
  · intro w h intens offx offy p
    unfold default_constructor_tasks
    by_cases hv : p.gauss_mask_size % 2 = 1 ∧ p.gauss_mask_size ≤ 13
    · rw [if_pos hv]
      simp [hv]
    · rw [if_neg hv]
      simp [hv]
  · intro img hodd hle i j hi hj
    omega

/-- C9: for every in-bounds coordinate (x,y), calling grad_x(x,y) or
grad_y(x,y) while has_gradients() is false raises no error and performs
no validity check: it returns exactly the (undefined, uninitialized)
value stored in the gradient buffer. -/
theorem claim_C9 (img : Image) (x y : ℕ)
    (hx : x < img.width_) (hy : y < img.height_)
    (hg : img.has_gradients = false)
    (h1 : y * img.width_ + x < img.grad_x_.length)
    (h2 : y * img.width_ + x < img.grad_y_.length) :
    img.grad_x x y = img.grad_x_.get ⟨y * img.width_ + x, h1⟩ ∧
    img.grad_y x y = img.grad_y_.get ⟨y * img.width_ + x, h2⟩ := by
  constructor
  · unfold Image.grad_x
    rw [List.getD_eq_getElem?_getD, List.getElem?_eq_getElem h1]
    rfl
  · unfold Image.grad_y
    rw [List.getD_eq_getElem?_getD, List.getElem?_eq_getElem h2]
    rfl

/-- C10: `compute_gradients` is read-only with respect to the input
intensity buffer (every intensity value is unchanged by a gradient
pass), and neither `compute_gradients` nor `gauss_filter` changes
width(), height(), offset_x(), offset_y(), or num_pixels(): the image
is never resized after construction. -/
theorem claim_C10 (img : Image) (hier : Bool) (ts : ℕ) :
    (img.compute_gradients hier ts).intensities_ = img.intensities_ ∧
    (∀ x y, (img.compute_gradients hier ts).intensity x y =
      img.intensity x y) ∧
    (img.compute_gradients hier ts).width = img.width ∧
    (img.compute_gradients hier ts).height = img.height ∧
    (img.compute_gradients hier ts).offset_x = img.offset_x ∧
    (img.compute_gradients hier ts).offset_y = img.offset_y ∧
    (img.compute_gradients hier ts).num_pixels = img.num_pixels ∧
    ∀ img', img.gauss_filter hier ts = Except.ok img' →
      img'.width = img.width ∧ img'.height = img.height ∧
      img'.offset_x = img.offset_x ∧ img'.offset_y = img.offset_y ∧
      img'.num_pixels = img.num_pixels := by
  refine ⟨?_, ?_, ?_, ?_, ?_, ?_, ?_, ?_⟩
  · unfold Image.compute_gradients; cases hier <;> rfl
  · intro x y; unfold Image.compute_gradients; cases hier <;> rfl
  · unfold Image.compute_gradients; cases hier <;> rfl
  · unfold Image.compute_gradients; cases hier <;> rfl
  · unfold Image.compute_gradients; cases hier <;> rfl
  · unfold Image.compute_gradients; cases hier <;> rfl
  · unfold Image.compute_gradients; cases hier <;> rfl
  · intro img' hok
    unfold Image.gauss_filter at hok
    split at hok
    · split at hok <;>
        · injection hok with e
          rw [← e]
          exact ⟨rfl, rfl, rfl, rfl, rfl⟩
    · exact absurd hok (by simp)

/-!
Concrete images used to witness the claim theorems at concrete inputs.
-/

/-- A concrete 4×3 constant-intensity image of value 5 with mask size 3. -/
def constImage : Image :=
  { offset_x_ := 0, offset_y_ := 0, width_ := 4, height_ := 3,
    intensities_ := List.replicate 12 5,
    grad_x_ := List.replicate 12 0, grad_y_ := List.replicate 12 0,
    has_gradients_ := false, gauss_filter_mask_size_ := 3 }

/-- The result of Gauss-filtering `constImage`: the same constant
field. -/
def constImageF : Image :=
  { constImage with intensities_ := List.replicate 12 (5 : ℚ) }

theorem constImage_intensity (x y : ℕ) (hx : x < 4) (hy : y < 3) :
    constImage.intensity x y = 5 := by
  show (List.replicate 12 (5 : ℚ)).getD (y * 4 + x) 0 = 5
  rw [List.getD_eq_getElem?_getD,
    List.getElem?_eq_getElem (by simp only [List.length_replicate]; omega)]
  rw [Option.getD_some, List.getElem_replicate]

theorem constImage_filter_ok :
    constImage.gauss_filter false 256 = Except.ok constImageF := by
  unfold Image.gauss_filter
  rw [if_pos (by norm_num [constImage]), if_neg (by simp)]
  have hbuf : dispatchFlat
      (fun p => constImage.gauss_filtered_at (p % constImage.width_)
        (p / constImage.width_))
      (constImage.width_ * constImage.height_) = List.replicate 12 (5 : ℚ) := by
    apply List.ext_getElem
    · simp [dispatchFlat, constImage]
    · intro p hp hp'
      simp only [List.length_replicate] at hp'
      rw [List.getElem_replicate]
      unfold dispatchFlat
      rw [List.getElem_map, List.getElem_range]
      apply gauss_filtered_at_const constImage 5 (by norm_num [constImage])
        (fun x hx y hy => constImage_intensity x y hx hy)
      · exact Nat.mod_lt p (by norm_num [constImage])
      · show p / 4 < 3
        omega
  rw [hbuf]
  rfl

/-- A concrete 7×7 linear-ramp image with I(x,y) = a*x + b*y + c. -/
def rampImage (w h : ℕ) (a b c : ℚ) : Image :=
  { offset_x_ := 0, offset_y_ := 0, width_ := w, height_ := h,
    intensities_ :=
      (List.range (w * h)).map (fun p => a * (p % w : ℕ) + b * (p / w : ℕ) + c),
    grad_x_ := List.replicate (w * h) 0, grad_y_ := List.replicate (w * h) 0,
    has_gradients_ := false, gauss_filter_mask_size_ := 7 }

theorem rampImage_intensity (w h : ℕ) (a b c : ℚ) (x y : ℕ)
    (hx : x < w) (hy : y < h) :
    (rampImage w h a b c).intensity x y = a * x + b * y + c := by
  show (dispatchFlat (fun p => a * (p % w : ℕ) + b * (p / w : ℕ) + c)
    (w * h)).getD (y * w + x) 0 = a * x + b * y + c
  rw [dispatchFlat_getD _ _ _ (rowMajor_lt w h x y hx hy),
    rowMajor_mod w x y hx, rowMajor_div w x y hx]

/-- A concrete 2×2 image as produced by the array constructor. -/
def ctorImage : Image :=
  { offset_x_ := 0, offset_y_ := 0, width_ := 2, height_ := 2,
    intensities_ := List.replicate 4 0,
    grad_x_ := List.replicate 4 0, grad_y_ := List.replicate 4 0,
    has_gradients_ := false, gauss_filter_mask_size_ := 7 }

theorem ctorImage_ok :
    default_constructor_tasks 2 2 (List.replicate 4 0) 0 0 {} =
      Except.ok ctorImage := by
  unfold default_constructor_tasks
  rw [if_pos (by decide)]
  rfl

/-- A concrete image configured with an invalid (even) mask size. -/
def badMaskImage : Image := { constImage with gauss_filter_mask_size_ := 4 }

/-!
Witnesses: each claim theorem applied at concrete inputs.
-/

/-- Witness for C1 at the interior pixel (3,3) of a concrete 7×7
image, flat dispatch with team size 5. -/
theorem claim_C1_witness :
    ((rampImage 7 7 1 2 3).compute_gradients false 5).grad_x 3 3 =
      grad_c1 * ((rampImage 7 7 1 2 3).intensity 1 3 -
        (rampImage 7 7 1 2 3).intensity 5 3) +
      grad_c2 * ((rampImage 7 7 1 2 3).intensity 4 3 -
        (rampImage 7 7 1 2 3).intensity 2 3) ∧
    ((rampImage 7 7 1 2 3).compute_gradients false 5).grad_y 3 3 =
      grad_c1 * ((rampImage 7 7 1 2 3).intensity 3 1 -
        (rampImage 7 7 1 2 3).intensity 3 5) +
      grad_c2 * ((rampImage 7 7 1 2 3).intensity 3 4 -
        (rampImage 7 7 1 2 3).intensity 3 2) :=
  claim_C1 (rampImage 7 7 1 2 3) false 5 (by decide) 3 3
    (by decide) (by decide) (by decide) (by decide)

/-- Witness for C2 at mask size 3 and the concrete 4×3 constant image
of value 5, checked at an interior pixel, a corner and an edge pixel. -/
theorem claim_C2_witness :
    (∑ j ∈ Finset.range 3, ∑ i ∈ Finset.range 3, gauss_coeff 3 i j = 1) ∧
    constImageF.intensity 1 1 = 5 ∧ constImageF.intensity 0 0 = 5 ∧
    constImageF.intensity 3 2 = 5 :=
  ⟨(claim_C2 3 (by decide) (by decide)).1,
   (claim_C2 3 (by decide) (by decide)).2 constImage 5 false 256 (by decide) rfl
     (fun x hx y hy => constImage_intensity x y hx hy) constImageF
     constImage_filter_ok 1 (by decide) 1 (by decide),
   (claim_C2 3 (by decide) (by decide)).2 constImage 5 false 256 (by decide) rfl
     (fun x hx y hy => constImage_intensity x y hx hy) constImageF
     constImage_filter_ok 0 (by decide) 0 (by decide),
   (claim_C2 3 (by decide) (by decide)).2 constImage 5 false 256 (by decide) rfl
     (fun x hx y hy => constImage_intensity x y hx hy) constImageF
     constImage_filter_ok 3 (by decide) 2 (by decide)⟩

/-- Witness for C3 on a concrete 7×7 image with team size 5 (ten
teams, the last one partial). -/
theorem claim_C3_witness :
    (rampImage 7 7 1 2 3).compute_gradients true 5 =
      (rampImage 7 7 1 2 3).compute_gradients false 5 ∧
    (rampImage 7 7 1 2 3).gauss_filter true 5 =
      (rampImage 7 7 1 2 3).gauss_filter false 5 :=
  claim_C3 (rampImage 7 7 1 2 3) 5 (by decide)

/-- Witness for C4: a freshly constructed image, a freshly filtered
image and a freshly gradient-computed image. -/
theorem claim_C4_witness :
    ctorImage.has_gradients = false ∧
    constImageF.has_gradients = false ∧
    ((rampImage 7 7 1 2 3).compute_gradients false 256).has_gradients = true :=
  ⟨claim_C4.1 2 2 (List.replicate 4 0) 0 0 {} ctorImage ctorImage_ok,
   claim_C4.2.2.2.1 constImage false 256 constImageF constImage_filter_ok,
   claim_C4.2.2.2.2 (rampImage 7 7 1 2 3) false 256⟩

/-- Witness for C5 at concrete edge pixels of a concrete 7×7 image:
left edge, right edge, a near-edge column and a top edge row. -/
theorem claim_C5_witness :
    ((rampImage 7 7 1 2 3).compute_gradients false 7).grad_x 0 3 =
      (rampImage 7 7 1 2 3).intensity 1 3 -
        (rampImage 7 7 1 2 3).intensity 0 3 ∧
    ((rampImage 7 7 1 2 3).compute_gradients false 7).grad_x 6 3 =
      (rampImage 7 7 1 2 3).intensity 6 3 -
        (rampImage 7 7 1 2 3).intensity 5 3 ∧
    ((rampImage 7 7 1 2 3).compute_gradients false 7).grad_x 1 3 =
      ((rampImage 7 7 1 2 3).intensity 2 3 -
        (rampImage 7 7 1 2 3).intensity 0 3) / 2 ∧
    ((rampImage 7 7 1 2 3).compute_gradients false 7).grad_y 3 0 =
      (rampImage 7 7 1 2 3).intensity 3 1 -
        (rampImage 7 7 1 2 3).intensity 3 0 :=
  ⟨(claim_C5 (rampImage 7 7 1 2 3) false 7 (by decide)).1 3 (by decide) (by decide),
   (claim_C5 (rampImage 7 7 1 2 3) false 7 (by decide)).2.1 3 (by decide) (by decide),
   (claim_C5 (rampImage 7 7 1 2 3) false 7 (by decide)).2.2.1 1 3 (by decide)
     (by decide) (by decide) (Or.inl (by decide)),
   (claim_C5 (rampImage 7 7 1 2 3) false 7 (by decide)).2.2.2.1 3 (by decide)
     (by decide)⟩

/-- Witness for C6 on the concrete 7×7 ramp I(x,y) = 1*x + 2*y + 3 at
the interior pixel (3,3). -/
theorem claim_C6_witness :
    ((rampImage 7 7 1 2 3).compute_gradients false 256).grad_x 3 3 = 1 ∧
    ((rampImage 7 7 1 2 3).compute_gradients false 256).grad_y 3 3 = 2 ∧
    2 * grad_c2 - 4 * grad_c1 = 1 :=
  claim_C6 (rampImage 7 7 1 2 3) 1 2 3 false 256 (by decide)
    (fun x hx y hy => rampImage_intensity 7 7 1 2 3 x y hx hy) 3 3
    (by decide) (by decide) (by decide) (by decide)

/-- Witness for C7: the concrete 50×50-parent scenario. -/
theorem claim_C7_witness :
    ((image_from_sub_rect 50 50 (fun _ _ => 0) 5 5 20 20 {} =
        Except.error Err.ConstructionError) ↔
      ¬(0 < 20 ∧ 0 < 20 ∧ 5 + 20 ≤ 50 ∧ 5 + 20 ≤ 50)) ∧
    (∃ img, image_from_sub_rect 50 50 (fun _ _ => 0) 5 5 20 20 {} =
      Except.ok img) ∧
    image_from_sub_rect 50 50 (fun _ _ => 0) 5 5 50 20 {} =
      Except.error Err.ConstructionError :=
  claim_C7 50 50 (fun _ _ => 0) 5 5 20 20

/-- Witness for C8: an even mask size of 4 at filter time, a mask size
of 15 at construction time, and in-table indices for mask size 3. -/
theorem claim_C8_witness :
    badMaskImage.gauss_filter false 256 = Except.error Err.ConfigError ∧
    default_constructor_tasks 2 2 (List.replicate 4 0) 0 0
      { gauss_mask_size := 15 } = Except.error Err.ConfigError ∧
    (2 < 13 ∧ 1 < 13) :=
  ⟨(claim_C8.1 badMaskImage false 256).mpr (by decide),
   (claim_C8.2.1 2 2 (List.replicate 4 0) 0 0 { gauss_mask_size := 15 }).mpr
     (by decide),
   claim_C8.2.2 constImage (by decide) (by decide) 2 1 (by decide) (by decide)⟩

/-- Witness for C9 at the in-bounds coordinate (3,2) of a concrete
image with has_gradients false. -/
theorem claim_C9_witness :
    (rampImage 7 7 1 2 3).grad_x 3 2 =
      (rampImage 7 7 1 2 3).grad_x_.get ⟨17, by decide⟩ ∧
    (rampImage 7 7 1 2 3).grad_y 3 2 =
      (rampImage 7 7 1 2 3).grad_y_.get ⟨17, by decide⟩ :=
  claim_C9 (rampImage 7 7 1 2 3) 3 2 (by decide) (by decide) rfl
    (by decide) (by decide)

/-- Witness for C10 on the concrete 4×3 constant image, with the
filtered image produced by a concrete successful gauss_filter call. -/
theorem claim_C10_witness :
    (constImage.compute_gradients false 256).intensities_ =
      constImage.intensities_ ∧
    (constImage.compute_gradients false 256).intensity 2 1 =
      constImage.intensity 2 1 ∧
    (constImage.compute_gradients false 256).width = constImage.width ∧
    (constImage.compute_gradients false 256).height = constImage.height ∧
    (constImage.compute_gradients false 256).offset_x = constImage.offset_x ∧
    (constImage.compute_gradients false 256).offset_y = constImage.offset_y ∧
    (constImage.compute_gradients false 256).num_pixels =
      constImage.num_pixels ∧
    (constImageF.width = constImage.width ∧
     constImageF.height = constImage.height ∧
     constImageF.offset_x = constImage.offset_x ∧
     constImageF.offset_y = constImage.offset_y ∧
     constImageF.num_pixels = constImage.num_pixels) :=
  ⟨(claim_C10 constImage false 256).1,
   (claim_C10 constImage false 256).2.1 2 1,
   (claim_C10 constImage false 256).2.2.1,
   (claim_C10 constImage false 256).2.2.2.1,
   (claim_C10 constImage false 256).2.2.2.2.1,
   (claim_C10 constImage false 256).2.2.2.2.2.1,
   (claim_C10 constImage false 256).2.2.2.2.2.2.1,
   (claim_C10 constImage false 256).2.2.2.2.2.2.2 constImageF
     constImage_filter_ok⟩

end DICe
